import Mathlib

/-!
Verification development for the reconciliation & audit subsystem of
`mithrandir-unified-api`.

The definitions below are a shallow embedding of:
  * `src/modules/reconciliation/schemas/reconciliation.schema.ts`
    (tables `discrepancy_event`, `command_audit`, and the
    `command_audit_append_only` BEFORE DELETE trigger);
  * `src/modules/reconciliation/reconciliation.service.ts`
    (`initializeReconciliation`, `getAuditLog`, `pollReconciliation`;
    the current service file uses ESM `.js` imports, builds the poll
    event with `checksum: ''` and `latency_ms: 0`, and normalizes
    `sortBy`/`sortOrder` against allow-lists);
  * `src/lib/sse.ts` (`broadcast` over the registered clients);
  * `src/modules/commands/commands.service.ts` (`runCommand`) together
    with `broadcastCommandUpdate` from `commands.controller.ts`.

SQLite state is modelled as lists of rows plus the set of installed
triggers; JavaScript exceptions are modelled by `Except`/`Option`
results threaded through the control flow exactly as the `try`/`catch`
blocks of the source dictate.  Wall-clock values (`datetime('now')`,
`new Date().toISOString()`, `randomUUID()`) are inputs to the embedded
functions.
-/

/-- Byte-wise (code-point) lexicographic comparison on character lists:
the comparison SQLite's default BINARY collation applies to the TEXT
columns of the schema. -/
def charListLe : List Char → List Char → Bool
  | [], _ => true
  | _ :: _, [] => false
  | a :: as, b :: bs => if a = b then charListLe as bs else decide (a.toNat < b.toNat)

/-- Comparison `a <= b` for TEXT values under SQLite's BINARY collation. -/
def strLe (a b : String) : Bool := charListLe a.data b.data

/-- Escaping applied by `JSON.stringify` to the characters that occur in
the log strings of the source (quote and backslash). -/
def jsonEscapeChar (c : Char) : String :=
  if c = '"' then "\\\"" else if c = '\\' then "\\\\" else String.singleton c

/-- Body of `JSON.stringify` for one string literal. -/
def jsonEscape (s : String) : String := String.join (s.data.map jsonEscapeChar)

/-- Serialization `JSON.stringify(logs)` of a `string[]` value, as used for the
`logs_json` column in `runCommand`. -/
def jsonStringifyStrings (xs : List String) : String :=
  "[" ++ String.intercalate "," (xs.map (fun s => "\"" ++ jsonEscape s ++ "\"")) ++ "]"

/-- JavaScript `v?.field || d`: `undefined`, and the falsy empty string,
fall back to the default. -/
def jsOrDefault (v : Option String) (d : String) : String :=
  match v with
  | none => d
  | some s => if s == "" then d else s

/-- JavaScript truthiness of an optional string (`if (actionType) ...`
in `getAuditLog`): absent and empty-string values are falsy. -/
def truthyStr : Option String → Bool
  | none => false
  | some s => !(s == "")

/-- One row of the `command_audit` table
(`reconciliation.schema.ts`, `commandAuditTable`). -/
structure CommandAuditRow where
  id : String
  timestamp : String
  actor : String
  action_type : String
  target : String
  outcome : String
  before_state_json : Option String := none
  after_state_json : Option String := none
  command_params_json : Option String := none
  logs_json : Option String := none
deriving DecidableEq, Repr

/-- One row of the `discrepancy_event` table
(`reconciliation.schema.ts`, `discrepancyEventTable`). -/
structure DiscrepancyEventRow where
  id : String
  timestamp : String
  service : String
  status : String
  counts_json : String
  checksum : String
  latency_ms : Int
  discrepancy_details_json : Option String := none
deriving DecidableEq, Repr

/-- A BEFORE DELETE trigger that unconditionally raises ABORT with a
message, which is the only kind of trigger the schema declares. -/
structure DbTrigger where
  name : String
  table : String
  abortMessage : String
deriving DecidableEq, Repr

/-- Embeds `commandAuditAppendOnlyTrigger` of `reconciliation.schema.ts`:
`CREATE TRIGGER IF NOT EXISTS command_audit_append_only BEFORE DELETE ON
command_audit BEGIN SELECT RAISE(ABORT, 'Audit log entries cannot be
deleted'); END;`. -/
def commandAuditAppendOnlyTrigger : DbTrigger :=
  { name := "command_audit_append_only"
    table := "command_audit"
    abortMessage := "Audit log entries cannot be deleted" }

/-- The SQLite database owned by the reconciliation service: the two
tables of the schema plus the installed triggers. -/
structure DbState where
  commandAudit : List CommandAuditRow
  discrepancyEvent : List DiscrepancyEventRow
  triggers : List DbTrigger
deriving DecidableEq, Repr

/-- A freshly created database file: both tables empty, no triggers. -/
def emptyDb : DbState := { commandAudit := [], discrepancyEvent := [], triggers := [] }

/-- Semantics of `CREATE TRIGGER IF NOT EXISTS`: installs the trigger unless one with
the same name exists. -/
def execCreateTrigger (s : DbState) (t : DbTrigger) : DbState :=
  if s.triggers.any (fun u => u.name == t.name) then s
  else { s with triggers := s.triggers ++ [t] }

/-- Embeds `initializeReconciliation` (reconciliation.service.ts): executes the
two `CREATE TABLE IF NOT EXISTS` statements — which leave the modelled
row state unchanged — and then installs
`commandAuditAppendOnlyTrigger`. -/
def initReconciliation (s : DbState) : DbState :=
  execCreateTrigger s commandAuditAppendOnlyTrigger

/-- The BEFORE DELETE trigger installed on a table, if any. -/
def deleteTriggerFor (s : DbState) (table : String) : Option DbTrigger :=
  s.triggers.find? (fun t => t.table == table)

/-- Statement `INSERT INTO command_audit ...` (append). -/
def insertCommandAudit (s : DbState) (r : CommandAuditRow) : DbState :=
  { s with commandAudit := s.commandAudit ++ [r] }

/-- Statement `INSERT INTO discrepancy_event ...` (append). -/
def insertDiscrepancyEvent (s : DbState) (r : DiscrepancyEventRow) : DbState :=
  { s with discrepancyEvent := s.discrepancyEvent ++ [r] }

/-- Statement `DELETE FROM command_audit WHERE p`.  If a BEFORE DELETE trigger is
installed it fires on the first row about to be deleted and its
`RAISE(ABORT, msg)` fails the whole statement, which SQLite rolls back:
the table is left unchanged and the statement reports the error.  With
no matching row the trigger never fires and the delete affects
nothing.  Without a trigger the matching rows are removed. -/
def deleteCommandAuditRows (s : DbState) (p : CommandAuditRow → Bool) :
    Except String DbState :=
  match deleteTriggerFor s "command_audit" with
  | some t =>
    if s.commandAudit.any p then Except.error t.abortMessage else Except.ok s
  | none => Except.ok { s with commandAudit := s.commandAudit.filter (fun r => !(p r)) }

/-- Statement `DELETE FROM discrepancy_event WHERE p`, same SQLite semantics. -/
def deleteDiscrepancyEventRows (s : DbState) (p : DiscrepancyEventRow → Bool) :
    Except String DbState :=
  match deleteTriggerFor s "discrepancy_event" with
  | some t =>
    if s.discrepancyEvent.any p then Except.error t.abortMessage else Except.ok s
  | none =>
    Except.ok { s with discrepancyEvent := s.discrepancyEvent.filter (fun r => !(p r)) }

/-- The `command_audit` row count an observer sees after a delete
attempt: on `RAISE(ABORT)` the statement was rolled back, so the table
still holds the rows it held before. -/
def commandAuditCountAfterAttempt (s : DbState) (p : CommandAuditRow → Bool) : Nat :=
  match deleteCommandAuditRows s p with
  | Except.ok s2 => s2.commandAudit.length
  | Except.error _ => s.commandAudit.length

/-- Payload of a `command.status` broadcast
(`broadcastCommandUpdate` call sites in `commands.service.ts`). -/
structure CommandStatusPayload where
  commandId : String
  phase : String
  logs : List String
  verified : Option Bool := none
deriving DecidableEq, Repr

/-- The payloads that flow through `broadcast` in this subsystem. -/
inductive SsePayload where
  | commandStatus (p : CommandStatusPayload)
  | reconciliationUpdate (e : DiscrepancyEventRow)
deriving DecidableEq, Repr

/-- A registered SSE subscriber (`FastifyReply` in `src/lib/sse.ts`).
`failsOn` says whether this client's `client.sse(...)` call throws for a
given `(event, payload)`, and `errMsg` is the message it throws with. -/
structure SseClient where
  id : String
  errMsg : String
  failsOn : String → SsePayload → Bool

/-- Embeds `broadcast` (`src/lib/sse.ts`): `for (const client of clients)
client.sse({event, data: JSON.stringify(data)})`.  The loop has no
per-client error handling: a throwing `client.sse` aborts the loop and
the exception propagates to the caller.  Returns the ids of the clients
that received the event and the propagated error, if any. -/
def broadcast : List SseClient → String → SsePayload → List String × Option String
  | [], _, _ => ([], none)
  | c :: rest, event, data =>
    if c.failsOn event data then ([], some c.errMsg)
    else
      let r := broadcast rest event data
      (c.id :: r.1, r.2)

/-- Subscribers the spec says should be reached: everyone registered
before the first failing subscriber (in registration order). -/
def deliveredBeforeFailure (clients : List SseClient) (event : String)
    (data : SsePayload) : List String :=
  (clients.takeWhile (fun c => !(c.failsOn event data))).map (fun c => c.id)

/-- The error message of the first subscriber whose delivery throws. -/
def firstFailureMsg (clients : List SseClient) (event : String)
    (data : SsePayload) : Option String :=
  (clients.find? (fun c => c.failsOn event data)).map (fun c => c.errMsg)

/-- Embeds `broadcastCommandUpdate` (`commands.controller.ts`): publishes on
event name `command.status`. -/
def broadcastCommandUpdate (clients : List SseClient) (p : CommandStatusPayload) :
    List String × Option String :=
  broadcast clients "command.status" (SsePayload.commandStatus p)

/-- A write against the `command_audit` table performed by
`runCommand`. -/
inductive AuditOp where
  | insert (row : CommandAuditRow)
  | update (id : String) (outcome : String) (logsJson : String)
deriving DecidableEq, Repr

/-- Observable result of one `runCommand` invocation: the `command_audit`
writes in order, the `command.status` publishes attempted (payload plus
whether the publish completed without throwing), and the exception the
invocation itself ended with, if any. -/
structure RunCommandResult where
  ops : List AuditOp
  publishes : List (CommandStatusPayload × Bool)
  threw : Option String
deriving DecidableEq, Repr

/-- The `catch (error)` block of `runCommand`
(`commands.service.ts`): builds the failure logs, broadcasts the
`error` phase, and — only if that broadcast returns — finalizes the
audit row with outcome `failure`.  A throwing `error`-phase broadcast
propagates out of the block before the `UPDATE` runs. -/
def runCommandCatch (clients : List SseClient) (commandId command auditId : String)
    (errMessage : String) : RunCommandResult :=
  let logs := ["Command " ++ command ++ " failed.", errMessage]
  let pErr : CommandStatusPayload := { commandId := commandId, phase := "error", logs := logs }
  match (broadcastCommandUpdate clients pErr).2 with
  | some e2 => { ops := [], publishes := [(pErr, false)], threw := some e2 }
  | none =>
    { ops := [AuditOp.update auditId "failure" (jsonStringifyStrings logs)]
      publishes := [(pErr, true)]
      threw := none }

/-- Embeds `runCommand` (`src/modules/commands/commands.service.ts`).  Control
flow of the source: broadcast `queued`; `INSERT` the `running` audit row
(`actor = 'system'`, `action_type = command`,
`target = params?.target || 'unknown'`, store-assigned timestamp
`dbNow`, generated id `auditId`); then a `try` block that broadcasts
`running`, awaits the fixed-delay stub
(`new Promise(resolve => setTimeout(resolve, 2000))`, which cannot
throw), broadcasts `success` and runs the success `UPDATE`; any throw
inside the `try` enters the `catch` block modelled by
`runCommandCatch`. -/
def runCommand (clients : List SseClient) (commandId command : String)
    (paramsTarget : Option String) (auditId dbNow : String) : RunCommandResult :=
  let pQueued : CommandStatusPayload :=
    { commandId := commandId, phase := "queued", logs := ["Command received"] }
  match (broadcastCommandUpdate clients pQueued).2 with
  | some e => { ops := [], publishes := [(pQueued, false)], threw := some e }
  | none =>
    let row : CommandAuditRow :=
      { id := auditId, timestamp := dbNow, actor := "system", action_type := command
        target := jsOrDefault paramsTarget "unknown", outcome := "running" }
    let pRunning : CommandStatusPayload :=
      { commandId := commandId, phase := "running", logs := ["Executing command: " ++ command] }
    match (broadcastCommandUpdate clients pRunning).2 with
    | some e =>
      let c := runCommandCatch clients commandId command auditId e
      { ops := AuditOp.insert row :: c.ops
        publishes := (pQueued, true) :: (pRunning, false) :: c.publishes
        threw := c.threw }
    | none =>
      let logs := ["Command " ++ command ++ " completed successfully."]
      let pSuccess : CommandStatusPayload :=
        { commandId := commandId, phase := "success", logs := logs, verified := some true }
      match (broadcastCommandUpdate clients pSuccess).2 with
      | some e =>
        let c := runCommandCatch clients commandId command auditId e
        { ops := AuditOp.insert row :: c.ops
          publishes := (pQueued, true) :: (pRunning, true) :: (pSuccess, false) :: c.publishes
          threw := c.threw }
      | none =>
        { ops := [AuditOp.insert row,
                  AuditOp.update auditId "success" (jsonStringifyStrings logs)]
          publishes := [(pQueued, true), (pRunning, true), (pSuccess, true)]
          threw := none }

/-- An upstream job as the poller consumes it (`response.data.data`
elements; only `status` is read). -/
structure Job where
  status : String
deriving DecidableEq, Repr

/-- Serialization `JSON.stringify(counts)` of the object
`{total, completed, failed, pending}` built in `pollReconciliation`,
with JavaScript object-key insertion order. -/
def countsJson (jobs : List Job) : String :=
  "\x7b\"total\":" ++ toString jobs.length ++
  ",\"completed\":" ++ toString (jobs.filter (fun j => j.status == "completed")).length ++
  ",\"failed\":" ++ toString (jobs.filter (fun j => j.status == "failed")).length ++
  ",\"pending\":" ++ toString (jobs.filter (fun j => j.status == "pending")).length ++
  "\x7d"

/-- The `DiscrepancyEvent` object literal built by `pollReconciliation`
in the current `reconciliation.service.ts`: `id: randomUUID()`,
`timestamp: new Date().toISOString()`, fixed service name, `status:
'verified'`, the serialized counts, and the placeholder fields exactly
as written in the source — `checksum: ''` (`// Calculate checksum`) and
`latency_ms: 0` (`// Calculate latency`). -/
def pollEvent (jobs : List Job) (uuid nowIso : String) : DiscrepancyEventRow :=
  { id := uuid
    timestamp := nowIso
    service := "transcription-palantir"
    status := "verified"
    counts_json := countsJson jobs
    checksum := ""
    latency_ms := 0 }

/-- Observable result of one poll cycle: the database afterwards, the
publishes attempted (event name, event payload, and whether the publish
completed without throwing), and the error the cycle's `catch` block
swallowed, if any. -/
structure PollResult where
  db : DbState
  publishes : List (String × DiscrepancyEventRow × Bool)
  caught : Option String
deriving DecidableEq, Repr

/-- Embeds `pollReconciliation` (current `reconciliation.service.ts`): fetch
`/jobs` (outcome supplied as `fetched`), build the event, `INSERT` it
into `discrepancy_event` — the insert lists the columns `(id, service,
status, counts_json, checksum, latency_ms)`, so the stored row carries
the store-assigned `datetime('now')` timestamp `dbNow` and a NULL
`discrepancy_details_json` — then broadcast the event object under
`reconciliation.update`.  The surrounding `try`/`catch` logs and
swallows any failure, so a throwing broadcast still leaves the insert
in place and the cycle returns normally. -/
def pollReconciliation (clients : List SseClient) (fetched : Except String (List Job))
    (uuid nowIso dbNow : String) (s : DbState) : PollResult :=
  match fetched with
  | Except.error e => { db := s, publishes := [], caught := some e }
  | Except.ok jobs =>
    let event := pollEvent jobs uuid nowIso
    let stored : DiscrepancyEventRow := { event with timestamp := dbNow }
    let s2 := insertDiscrepancyEvent s stored
    match (broadcast clients "reconciliation.update" (SsePayload.reconciliationUpdate event)).2 with
    | some e => { db := s2, publishes := [("reconciliation.update", event, false)], caught := some e }
    | none => { db := s2, publishes := [("reconciliation.update", event, true)], caught := none }

/-- Embeds `ALLOWED_SORT_COLUMNS` of `getAuditLog`. -/
def allowedSortColumns : List String :=
  ["timestamp", "actor", "action_type", "target", "outcome"]

/-- Embeds `ALLOWED_SORT_ORDERS` of `getAuditLog`. -/
def allowedSortOrders : List String := ["asc", "desc"]

/-- The arguments of `getAuditLog`. -/
structure AuditLogQuery where
  page : Nat
  limit : Nat
  sortBy : String
  sortOrder : String
  actionType : Option String := none
  target : Option String := none
  startDate : Option String := none
  endDate : Option String := none
deriving DecidableEq, Repr

/-- Normalization `const sortBy = ALLOWED_SORT_COLUMNS.includes(querySortBy) ?
querySortBy : 'timestamp';` of the requested sort column. -/
def effectiveSortBy (q : AuditLogQuery) : String :=
  if allowedSortColumns.contains q.sortBy then q.sortBy else "timestamp"

/-- Normalization `const sortOrder = ALLOWED_SORT_ORDERS.includes(querySortOrder) ?
querySortOrder : 'desc';` of the requested sort direction. -/
def effectiveSortOrder (q : AuditLogQuery) : String :=
  if allowedSortOrders.contains q.sortOrder then q.sortOrder else "desc"

/-- One optional filter: an absent (or falsy empty) parameter adds no
condition; a present one must hold. -/
def filterMatch (v : Option String) (f : String → Bool) : Bool :=
  match v with
  | none => true
  | some s => if s == "" then true else f s

/-- The WHERE predicate `getAuditLog` builds: `action_type = ?`,
`target = ?`, `timestamp >= ?`, `timestamp <= ?`, AND-combined, each
present only when its query parameter is truthy. -/
def auditRowMatches (q : AuditLogQuery) (r : CommandAuditRow) : Bool :=
  filterMatch q.actionType (fun v => r.action_type == v) &&
  filterMatch q.target (fun v => r.target == v) &&
  filterMatch q.startDate (fun v => strLe v r.timestamp) &&
  filterMatch q.endDate (fun v => strLe r.timestamp v)

/-- Step `whereClause += \x7b$whereClause ? ' AND ' : ''\x7d...`: append one
condition to the accumulated WHERE clause when its guard is truthy. -/
def addCond (w : String) (b : Bool) (cond : String) : String :=
  if b then w ++ (if w == "" then "" else " AND ") ++ cond else w

/-- The full WHERE fragment of the SQL text `getAuditLog` prepares. -/
def auditLogSqlWhere (q : AuditLogQuery) : String :=
  let w := addCond "" (truthyStr q.actionType) "action_type = ?"
  let w := addCond w (truthyStr q.target) "target = ?"
  let w := addCond w (truthyStr q.startDate) "timestamp >= ?"
  let w := addCond w (truthyStr q.endDate) "timestamp <= ?"
  if w == "" then "" else "WHERE " ++ w

/-- The SQL text of the data query `getAuditLog` prepares:
`SELECT * FROM command_audit $\x7bwhere\x7d ORDER BY $\x7bsortBy\x7d
$\x7bsortOrder\x7d LIMIT ? OFFSET ?` — the interpolated sort column and
direction are the allow-list-normalized values, never the raw request
strings. -/
def auditLogDataSql (q : AuditLogQuery) : String :=
  "SELECT * FROM command_audit " ++ auditLogSqlWhere q ++
  " ORDER BY " ++ effectiveSortBy q ++ " " ++ effectiveSortOrder q ++
  " LIMIT ? OFFSET ?"

/-- The TEXT value of the column a row is ordered by. -/
def sortKey (col : String) (r : CommandAuditRow) : String :=
  if col == "timestamp" then r.timestamp
  else if col == "actor" then r.actor
  else if col == "action_type" then r.action_type
  else if col == "target" then r.target
  else if col == "outcome" then r.outcome
  else r.timestamp

/-- Row comparison realizing `ORDER BY col dir`. -/
def auditLe (q : AuditLogQuery) (r1 r2 : CommandAuditRow) : Bool :=
  if effectiveSortOrder q == "asc"
  then strLe (sortKey (effectiveSortBy q) r1) (sortKey (effectiveSortBy q) r2)
  else strLe (sortKey (effectiveSortBy q) r2) (sortKey (effectiveSortBy q) r1)

/-- Insert into a list sorted by `le`. -/
def insertSorted (le : α → α → Bool) (x : α) : List α → List α
  | [] => [x]
  | y :: ys => if le x y then x :: y :: ys else y :: insertSorted le x ys

/-- Insertion sort: the ORDER BY of the prepared statement (SQLite does
not specify the relative order of ties; this realization picks one). -/
def sortByKey (le : α → α → Bool) : List α → List α
  | [] => []
  | x :: xs => insertSorted le x (sortByKey le xs)

/-- Value `Math.ceil(total / limit)` on the exact rational value — `total` and
`limit` are small integers, exactly representable in JavaScript
numbers. -/
def mathCeilDiv (a b : Nat) : Nat := if b ∣ a then a / b else a / b + 1

/-- Component `meta` of the `getAuditLog` return value. -/
structure AuditLogMeta where
  page : Nat
  limit : Nat
  total : Nat
  totalPages : Nat
deriving DecidableEq, Repr

/-- Envelope `\x7bdata, meta\x7d` returned by `getAuditLog`. -/
structure AuditLogResult where
  data : List CommandAuditRow
  meta : AuditLogMeta
deriving DecidableEq, Repr

/-- Embeds `getAuditLog` (current `reconciliation.service.ts`), reading the
`command_audit` rows: count the rows matching the WHERE predicate, then
return the matching rows ordered by the normalized sort with
`LIMIT limit OFFSET (page - 1) * limit`, plus the pagination `meta`. -/
def getAuditLog (rows : List CommandAuditRow) (q : AuditLogQuery) : AuditLogResult :=
  let offset := (q.page - 1) * q.limit
  let matched := rows.filter (auditRowMatches q)
  let total := matched.length
  { data := ((sortByKey (auditLe q) matched).drop offset).take q.limit
    meta := { page := q.page, limit := q.limit, total := total
              totalPages := mathCeilDiv total q.limit } }

/-! Concrete subscribers, rows and queries used to exercise the
embedded operations. -/

/-- A subscriber whose transport throws on every delivery. -/
def badClient : SseClient :=
  { id := "sub-bad", errMsg := "sse write failed"
    failsOn := fun _ _ => true }

/-- A subscriber whose transport never throws. -/
def goodClient : SseClient :=
  { id := "sub-good", errMsg := "never", failsOn := fun _ _ => false }

/-- A sample `command.status` payload. -/
def probeStatusPayload : SsePayload :=
  SsePayload.commandStatus { commandId := "cmd-0", phase := "queued", logs := [] }

/-- A subscriber whose transport throws exactly on the `success`- and
`error`-phase `command.status` deliveries (e.g. a connection that went
away mid-command). -/
def failSuccErrClient : SseClient :=
  { id := "sub-1", errMsg := "sse write failed"
    failsOn := fun _ p =>
      match p with
      | SsePayload.commandStatus q => q.phase == "success" || q.phase == "error"
      | _ => false }

/-- A subscriber whose transport throws exactly on the `success`-phase
`command.status` delivery. -/
def failOnlySuccClient : SseClient :=
  { id := "sub-2", errMsg := "boom"
    failsOn := fun _ p =>
      match p with
      | SsePayload.commandStatus q => q.phase == "success"
      | _ => false }

/-- The `JobSource` stub of the end-to-end scenario: one completed, one
failed, one pending job. -/
def jobs3 : List Job := [{ status := "completed" }, { status := "failed" }, { status := "pending" }]

/-- A freshly inserted `command_audit` row. -/
def sampleAuditRow : CommandAuditRow :=
  { id := "audit-1", timestamp := "2024-01-01 00:00:00", actor := "system",
    action_type := "restart", target := "svc-a", outcome := "running" }

/-- The store after `initializeReconciliation` and one command-audit
insert. -/
def sampleInitializedDb : DbState :=
  insertCommandAudit (initReconciliation emptyDb) sampleAuditRow

/-- Predicate of `DELETE FROM command_audit WHERE id = 'audit-1'`. -/
def sampleDeletePred (r : CommandAuditRow) : Bool := r.id == "audit-1"

/-- A `discrepancy_event` row as the poller writes it. -/
def sampleDiscrepancyRow : DiscrepancyEventRow :=
  { id := "e1", timestamp := "2024-01-01 00:00:00", service := "transcription-palantir",
    status := "verified", counts_json := "\x7b\"total\":0\x7d", checksum := "", latency_ms := 0 }

/-- Three audit rows to page over. -/
def rowsEx : List CommandAuditRow :=
  [{ id := "1", timestamp := "2024-01-01", actor := "system", action_type := "restart",
     target := "svc-a", outcome := "success" },
   { id := "2", timestamp := "2024-01-02", actor := "system", action_type := "restart",
     target := "svc-b", outcome := "failure" },
   { id := "3", timestamp := "2024-01-03", actor := "system", action_type := "deploy",
     target := "svc-a", outcome := "success" }]

/-- A query carrying the injection attempt of the spec's test property. -/
def qInjection : AuditLogQuery :=
  { page := 1, limit := 2, sortBy := "id; DROP TABLE command_audit", sortOrder := "evil" }

/-- A plain second-page query under the default sort. -/
def qPage2 : AuditLogQuery :=
  { page := 2, limit := 2, sortBy := "timestamp", sortOrder := "desc" }

/-! Helper lemmas about the embedded operations. -/

/-- When no registered subscriber's transport throws for the event,
`broadcast` delivers to every subscriber and returns normally. -/
theorem broadcast_of_no_failure (clients : List SseClient) (event : String)
    (data : SsePayload) (h : ∀ c ∈ clients, c.failsOn event data = false) :
    broadcast clients event data = (clients.map (fun c => c.id), none) := by
  induction clients with
  | nil => rfl
  | cons c rest ih =>
    have hc : c.failsOn event data = false := h c (List.mem_cons_self c rest)
    have hrest := ih (fun x hx => h x (List.mem_cons_of_mem c hx))
    simp [broadcast, hc, hrest]

/-- Value `Math.ceil(a / b)` for positive `b`, as integer arithmetic. -/
theorem mathCeilDiv_eq (a b : Nat) (hb : 0 < b) :
    mathCeilDiv a b = (a + b - 1) / b := by
  obtain ⟨q, r, hr, rfl⟩ : ∃ q r, r < b ∧ a = b * q + r :=
    ⟨a / b, a % b, Nat.mod_lt _ hb, (Nat.div_add_mod a b).symm⟩
  have hdiv : (b * q + r) / b = q + r / b := Nat.mul_add_div hb q r
  have hr0 : r / b = 0 := Nat.div_eq_of_lt hr
  unfold mathCeilDiv
  by_cases h : r = 0
  · subst h
    have hdvd : b ∣ b * q + 0 := ⟨q, by omega⟩
    rw [if_pos hdvd, hdiv, hr0]
    have h2 : b * q + 0 + b - 1 = b * q + (b - 1) := by omega
    rw [h2, Nat.mul_add_div hb, Nat.div_eq_of_lt (show b - 1 < b by omega)]
  · have hm : (b * q + r) % b = r := by
      rw [Nat.mul_add_mod, Nat.mod_eq_of_lt hr]
    have hdvd : ¬ b ∣ b * q + r := by
      intro hd
      have h0 : (b * q + r) % b = 0 := by omega
      omega
    rw [if_neg hdvd, hdiv, hr0]
    have h2 : b * q + r + b - 1 = b * q + (r - 1 + b) := by omega
    rw [h2, Nat.mul_add_div hb, Nat.add_div_right _ hb,
      Nat.div_eq_of_lt (show r - 1 < b by omega)]

/-! Theorems settling the claims. -/

/-- C1: with the `command_audit_append_only` trigger installed (as
`initializeReconciliation` installs it), any delete attempt that matches
an inserted `command_audit` row fails with the explicit error
`Audit log entries cannot be deleted`, and the table's row count after
the attempt equals the row count before it. -/
theorem commandAudit_delete_attempt_rejected
    (s : DbState) (r : CommandAuditRow) (p : CommandAuditRow → Bool)
    (htrig : deleteTriggerFor s "command_audit" = some commandAuditAppendOnlyTrigger)
    (hmem : r ∈ s.commandAudit) (hp : p r = true) :
    deleteCommandAuditRows s p = Except.error "Audit log entries cannot be deleted" ∧
    commandAuditCountAfterAttempt s p = s.commandAudit.length := by
  have hany : s.commandAudit.any p = true := List.any_eq_true.mpr ⟨r, hmem, hp⟩
  refine ⟨?_, ?_⟩
  · simp [deleteCommandAuditRows, htrig, hany, commandAuditAppendOnlyTrigger]
  · simp [commandAuditCountAfterAttempt, deleteCommandAuditRows, htrig, hany]

theorem commandAudit_delete_attempt_rejected_witness :
    deleteCommandAuditRows sampleInitializedDb sampleDeletePred =
      Except.error "Audit log entries cannot be deleted" ∧
    commandAuditCountAfterAttempt sampleInitializedDb sampleDeletePred =
      sampleInitializedDb.commandAudit.length :=
  commandAudit_delete_attempt_rejected sampleInitializedDb sampleAuditRow sampleDeletePred
    (by rfl) (by decide) (by decide)

/-- C2: evaluation of `runCommand` at a failing input.  Against a
subscriber whose transport throws on the `success`- and `error`-phase
publishes, the invocation performs its single insert (outcome
`running`) but never runs the finalizing `UPDATE`: the `success`
broadcast throws into the `catch` block, the `error` broadcast throws
again, and control leaves `runCommand` before the update — the audit
row is left at `running` forever, contradicting the claim that
finalization happens exactly once even when publishes throw. -/
theorem runCommand_publish_failure_skips_update :
    (runCommand [failSuccErrClient] "cmd-1" "restart" (some "svc-a") "audit-1" "T0").ops =
      [AuditOp.insert { id := "audit-1", timestamp := "T0", actor := "system",
                        action_type := "restart", target := "svc-a", outcome := "running" }] ∧
    (runCommand [failSuccErrClient] "cmd-1" "restart" (some "svc-a") "audit-1" "T0").threw =
      some "sse write failed" := by
  decide

/-- C3 counterexample: the schema installs no trigger on
`discrepancy_event`, so after `initializeReconciliation` a delete of an
inserted discrepancy row is not rejected — it succeeds and removes the
row, refuting the claim that the storage layer rejects such deletes. -/
theorem discrepancyEvent_delete_succeeds_counterexample :
    deleteDiscrepancyEventRows
        (insertDiscrepancyEvent (initReconciliation emptyDb) sampleDiscrepancyRow)
        (fun r => r.id == "e1") =
      Except.ok { commandAudit := [], discrepancyEvent := [],
                  triggers := [commandAuditAppendOnlyTrigger] } := by
  rfl

/-- C3 (amended): the storage layer enforces append-only on
`command_audit` only.  In any store with the schema's triggers — which
include none on `discrepancy_event` — a delete on `discrepancy_event`
is not rejected: it succeeds and removes exactly the matching rows. -/
theorem discrepancyEvent_delete_not_rejected
    (s : DbState) (p : DiscrepancyEventRow → Bool)
    (h : s.triggers = (initReconciliation emptyDb).triggers) :
    deleteDiscrepancyEventRows s p =
      Except.ok { s with discrepancyEvent := s.discrepancyEvent.filter (fun r => !(p r)) } := by
  have hnone : deleteTriggerFor s "discrepancy_event" = none := by
    simp [deleteTriggerFor, h, initReconciliation, execCreateTrigger, emptyDb,
      commandAuditAppendOnlyTrigger]
  simp [deleteDiscrepancyEventRows, hnone]

theorem discrepancyEvent_delete_not_rejected_witness :
    deleteDiscrepancyEventRows
        (insertDiscrepancyEvent (initReconciliation emptyDb) sampleDiscrepancyRow)
        (fun r => r.id == "e1") =
      Except.ok { insertDiscrepancyEvent (initReconciliation emptyDb) sampleDiscrepancyRow with
                  discrepancyEvent :=
                    ((insertDiscrepancyEvent (initReconciliation emptyDb)
                        sampleDiscrepancyRow).discrepancyEvent.filter
                      (fun r => !(r.id == "e1"))) } :=
  discrepancyEvent_delete_not_rejected
    (insertDiscrepancyEvent (initReconciliation emptyDb) sampleDiscrepancyRow)
    (fun r => r.id == "e1") (by rfl)

/-- C4 counterexample: publishing to two subscribers where the first
one's transport throws delivers to nobody — in particular not to the
healthy second subscriber — and the failure propagates back to the
publisher, refuting both halves of the claim. -/
theorem broadcast_failure_not_isolated_counterexample :
    (broadcast [badClient, goodClient] "command.status" probeStatusPayload).1 = [] ∧
    (broadcast [badClient, goodClient] "command.status" probeStatusPayload).2 =
      some "sse write failed" := by
  decide

/-- C4 (amended): `broadcast` iterates the registered subscribers in
order with no per-subscriber error handling, so an event reaches
exactly the subscribers preceding the first failing one; from that
subscriber on nobody receives the event, and the first failure
propagates to the publisher. -/
theorem broadcast_delivers_before_first_failure
    (clients : List SseClient) (event : String) (data : SsePayload) :
    broadcast clients event data =
      (deliveredBeforeFailure clients event data, firstFailureMsg clients event data) := by
  induction clients with
  | nil => rfl
  | cons c rest ih =>
    by_cases h : c.failsOn event data
    · simp [broadcast, deliveredBeforeFailure, firstFailureMsg, h, List.takeWhile_cons,
        List.find?_cons_of_pos]
    · simp only [broadcast, h, if_neg, Bool.false_eq_true, not_false_iff, ih]
      simp [deliveredBeforeFailure, firstFailureMsg, List.takeWhile_cons, h,
        List.find?_cons_of_neg]

/-- C5: `getAuditLog` normalizes `sortBy` against the allow-list —
any value outside it falls back to `timestamp`, and `sortOrder` outside
`asc`/`desc` falls back to `desc` — and the raw request strings are
never interpolated into the prepared SQL: the SQL text and the query
result for the malicious request are identical to those of the benign
`timestamp`-sorted request, so the attempt causes no schema change. -/
theorem getAuditLog_sortBy_allowlist_fallback
    (rows : List CommandAuditRow) (q : AuditLogQuery)
    (hs : allowedSortColumns.contains q.sortBy = false) :
    effectiveSortBy q = "timestamp" ∧
    (allowedSortOrders.contains q.sortOrder = false → effectiveSortOrder q = "desc") ∧
    auditLogDataSql q = auditLogDataSql { q with sortBy := "timestamp" } ∧
    getAuditLog rows q = getAuditLog rows { q with sortBy := "timestamp" } := by
  have hs2 : q.sortBy ∉ allowedSortColumns := by simpa using hs
  have h1 : effectiveSortBy q = "timestamp" := by
    simp [effectiveSortBy, hs2]
  have h2 : effectiveSortBy { q with sortBy := "timestamp" } = "timestamp" := by
    simp [effectiveSortBy]
  have h3 : effectiveSortOrder { q with sortBy := "timestamp" } = effectiveSortOrder q := by
    simp [effectiveSortOrder]
  have hm : auditRowMatches { q with sortBy := "timestamp" } = auditRowMatches q := rfl
  have hle : auditLe { q with sortBy := "timestamp" } = auditLe q := by
    funext r1 r2
    simp [auditLe, h1, h2, h3]
  refine ⟨h1, ?_, ?_, ?_⟩
  · intro ho
    have ho2 : q.sortOrder ∉ allowedSortOrders := by simpa using ho
    simp [effectiveSortOrder, ho2]
  · simp [auditLogDataSql, auditLogSqlWhere, h1, h2, h3]
  · simp [getAuditLog, hle, hm]

theorem getAuditLog_sortBy_allowlist_fallback_witness :
    effectiveSortBy qInjection = "timestamp" ∧
    (allowedSortOrders.contains qInjection.sortOrder = false →
      effectiveSortOrder qInjection = "desc") ∧
    auditLogDataSql qInjection = auditLogDataSql { qInjection with sortBy := "timestamp" } ∧
    getAuditLog rowsEx qInjection = getAuditLog rowsEx { qInjection with sortBy := "timestamp" } :=
  getAuditLog_sortBy_allowlist_fallback rowsEx qInjection (by decide)

/-- C6: for any row set and query with `page ≥ 1` and `limit > 0`,
`getAuditLog` echoes `page` and `limit`, reports as `total` the number
of rows matching the AND-combined filters ignoring pagination, computes
`totalPages = ceil(total / limit)` (equal to
`(total + limit - 1) / limit`), and returns as `data` the slice of the
sorted matching rows at offset `(page - 1) * limit`, at most `limit` of
them. -/
theorem getAuditLog_pagination_meta
    (rows : List CommandAuditRow) (q : AuditLogQuery)
    (_hp : 1 ≤ q.page) (hl : 0 < q.limit) :
    (getAuditLog rows q).meta.page = q.page ∧
    (getAuditLog rows q).meta.limit = q.limit ∧
    (getAuditLog rows q).meta.total = (rows.filter (auditRowMatches q)).length ∧
    (getAuditLog rows q).meta.totalPages =
      ((rows.filter (auditRowMatches q)).length + q.limit - 1) / q.limit ∧
    (getAuditLog rows q).data =
      ((sortByKey (auditLe q) (rows.filter (auditRowMatches q))).drop
        ((q.page - 1) * q.limit)).take q.limit ∧
    (getAuditLog rows q).data.length ≤ q.limit := by
  refine ⟨rfl, rfl, rfl, ?_, rfl, ?_⟩
  · simpa [getAuditLog] using mathCeilDiv_eq (rows.filter (auditRowMatches q)).length q.limit hl
  · simp [getAuditLog]

theorem getAuditLog_pagination_meta_witness :
    (getAuditLog rowsEx qPage2).meta.page = qPage2.page ∧
    (getAuditLog rowsEx qPage2).meta.limit = qPage2.limit ∧
    (getAuditLog rowsEx qPage2).meta.total = (rowsEx.filter (auditRowMatches qPage2)).length ∧
    (getAuditLog rowsEx qPage2).meta.totalPages =
      ((rowsEx.filter (auditRowMatches qPage2)).length + qPage2.limit - 1) / qPage2.limit ∧
    (getAuditLog rowsEx qPage2).data =
      ((sortByKey (auditLe qPage2) (rowsEx.filter (auditRowMatches qPage2))).drop
        ((qPage2.page - 1) * qPage2.limit)).take qPage2.limit ∧
    (getAuditLog rowsEx qPage2).data.length ≤ qPage2.limit :=
  getAuditLog_pagination_meta rowsEx qPage2 (by decide) (by decide)

/-- C7: one poll cycle against the three-job `JobSource` stub inserts
exactly one new `discrepancy_event` row — counts `completed = 1`,
`failed = 1`, `pending = 1` (and `total = 3`), status `verified` — and
publishes the event under the name `reconciliation.update`. -/
theorem pollReconciliation_three_jobs_scenario :
    (pollReconciliation [goodClient] (Except.ok jobs3) "uuid-1" "T-ISO" "T-DB"
        (initReconciliation emptyDb)).db.discrepancyEvent =
      [{ id := "uuid-1", timestamp := "T-DB", service := "transcription-palantir",
         status := "verified",
         counts_json := "\x7b\"total\":3,\"completed\":1,\"failed\":1,\"pending\":1\x7d",
         checksum := "", latency_ms := 0 }] ∧
    (pollReconciliation [goodClient] (Except.ok jobs3) "uuid-1" "T-ISO" "T-DB"
        (initReconciliation emptyDb)).publishes =
      [("reconciliation.update",
        { id := "uuid-1", timestamp := "T-ISO", service := "transcription-palantir",
          status := "verified",
          counts_json := "\x7b\"total\":3,\"completed\":1,\"failed\":1,\"pending\":1\x7d",
          checksum := "", latency_ms := 0 }, true)] ∧
    (pollReconciliation [goodClient] (Except.ok jobs3) "uuid-1" "T-ISO" "T-DB"
        (initReconciliation emptyDb)).caught = none := by
  decide

/-- C8: evaluation of the poll event at a failing input.  The current
`pollReconciliation` builds the event with the placeholder
`checksum: ''` (comment `// Calculate checksum`), so every job list —
in particular the two different lists here — receives the same empty
checksum: checksum equality cannot detect whether upstream data
changed. -/
theorem pollEvent_checksum_placeholder :
    (∀ jobs uuid nowIso, (pollEvent jobs uuid nowIso).checksum = "") ∧
    (jobs3 == ([] : List Job)) = false ∧
    (pollEvent [] "u1" "t1").checksum = (pollEvent jobs3 "u1" "t1").checksum :=
  ⟨fun _ _ _ => rfl, by decide, rfl⟩

/-- C9: evaluation of the poll cycle at a failing input.  The stored
discrepancy row is exactly the built event (with the store-assigned
timestamp), and the event carries the placeholder `latency_ms: 0`
(comment `// Calculate latency`) — not the elapsed time of the upstream
query. -/
theorem pollReconciliation_latency_placeholder :
    ∀ (clients : List SseClient) (jobs : List Job) (uuid nowIso dbNow : String) (s : DbState),
      (pollReconciliation clients (Except.ok jobs) uuid nowIso dbNow s).db.discrepancyEvent =
        s.discrepancyEvent ++ [{ pollEvent jobs uuid nowIso with timestamp := dbNow }] ∧
      (pollEvent jobs uuid nowIso).latency_ms = 0 := by
  intro clients jobs uuid nowIso dbNow s
  refine ⟨?_, rfl⟩
  cases h : (broadcast clients "reconciliation.update"
      (SsePayload.reconciliationUpdate (pollEvent jobs uuid nowIso))).2 with
  | none => simp [pollReconciliation, insertDiscrepancyEvent, h]
  | some e => simp [pollReconciliation, insertDiscrepancyEvent, h]

/-- C10 counterexample: the delegated execution stub indeed cannot
throw, but the failure branch is reachable without it: against a
subscriber whose transport throws exactly on the `success`-phase
publish, the `catch` block runs, the `error`-phase publish succeeds,
and the audit row is finalized with outcome `failure` — so a failed
command outcome can be produced at this interface. -/
theorem runCommand_failure_outcome_reachable_counterexample :
    (runCommand [failOnlySuccClient] "cmd-2" "restart" (some "svc-a") "audit-2" "T0").ops =
      [AuditOp.insert { id := "audit-2", timestamp := "T0", actor := "system",
                        action_type := "restart", target := "svc-a", outcome := "running" },
       AuditOp.update "audit-2" "failure" "[\"Command restart failed.\",\"boom\"]"] := by
  decide

/-- C10 (amended): the execution step of `runCommand` is a fixed-delay
stub that cannot throw, so whenever no broadcast publish throws, every
invocation performs exactly its insert and then finalizes the audit row
with outcome `success` and the single log line
`Command <command> completed successfully.`; the failure branch is
reachable only through a throwing publish. -/
theorem runCommand_success_when_publishes_ok
    (clients : List SseClient) (commandId command : String) (paramsTarget : Option String)
    (auditId dbNow : String)
    (hq : ∀ c ∈ clients, ∀ e d, c.failsOn e d = false) :
    runCommand clients commandId command paramsTarget auditId dbNow =
      { ops := [AuditOp.insert { id := auditId, timestamp := dbNow, actor := "system",
                                 action_type := command,
                                 target := jsOrDefault paramsTarget "unknown",
                                 outcome := "running" },
                AuditOp.update auditId "success"
                  (jsonStringifyStrings ["Command " ++ command ++ " completed successfully."])],
        publishes :=
          [({ commandId := commandId, phase := "queued", logs := ["Command received"] }, true),
           ({ commandId := commandId, phase := "running",
              logs := ["Executing command: " ++ command] }, true),
           ({ commandId := commandId, phase := "success",
              logs := ["Command " ++ command ++ " completed successfully."],
              verified := some true }, true)],
        threw := none } := by
  have hb : ∀ p : CommandStatusPayload, broadcastCommandUpdate clients p =
      (clients.map (fun c => c.id), none) := by
    intro p
    rw [broadcastCommandUpdate, broadcast_of_no_failure clients _ _ (fun c hc => hq c hc _ _)]
  simp [runCommand, hb]

theorem runCommand_success_when_publishes_ok_witness :
    runCommand [goodClient] "cmd-3" "restart" (some "svc-a") "audit-3" "T0" =
      { ops := [AuditOp.insert { id := "audit-3", timestamp := "T0", actor := "system",
                                 action_type := "restart", target := "svc-a",
                                 outcome := "running" },
                AuditOp.update "audit-3" "success"
                  "[\"Command restart completed successfully.\"]"],
        publishes :=
          [({ commandId := "cmd-3", phase := "queued", logs := ["Command received"] }, true),
           ({ commandId := "cmd-3", phase := "running",
              logs := ["Executing command: restart"] }, true),
           ({ commandId := "cmd-3", phase := "success",
              logs := ["Command restart completed successfully."],
              verified := some true }, true)],
        threw := none } :=
  runCommand_success_when_publishes_ok [goodClient] "cmd-3" "restart" (some "svc-a")
    "audit-3" "T0"
    (fun c hc e d => by
      rcases List.mem_singleton.mp hc with rfl
      rfl)
